import Mathlib

/-
Verification of the scene-management core of pyvista (plotting/renderer.py).

Shallow embedding conventions:
  * Machine floats are modelled as rationals; the only non-finite float values
    the module manipulates are the inf and minus-inf sentinels of the bounds accumulator,
    which are modelled explicitly by the type EVal below.
  * A vtk actor is modelled by its Python object identity (an id : Nat), the
    result of GetBounds() (none models both a missing GetBounds attribute and
    GetBounds() returning None), and whether it is a vtkCubeAxesActor.
  * The registry self dot _actors is a Python dict, modelled as an ordered
    association list with string keys.
  * External collaborators (the vtk graphics subsystem, the parent plotter,
    the scalar-bar bookkeeping) are modelled by an event trace recording the
    calls made to them, plus a Backend parameter for ResetCamera, whose result
    (the new camera framing chosen by vtk) is an arbitrary function of the
    camera.  ResetCamera never changes the model-transform matrix.
  * The model-transform matrix installed on the camera is only ever written by
    set_scale (renderer.py line 797) with a pure diagonal scale transform, so
    it is modelled by its diagonal, a triple of rationals; the initial matrix
    is the identity (1,1,1).  scale_point multiplies the homogeneous point
    (x, y, z, 0), so the translation column is irrelevant and multiplication
    is componentwise; matrix inversion is componentwise reciprocal, which is
    the vtk inverse for every invertible diagonal matrix.
  * States are modelled without an active bounding-box object or cube-axes
    decoration, so update_bounds_axes (renderer.py line 857) leaves the
    modelled state unchanged; the field bounding_box_actor is kept because the
    bounds property reads it.  SetPickable, BackfaceCullingOn and clipping
    range resets are visual effects on external vtk objects and are outside
    the modelled state.
-/

/-- A 3-vector of rationals. -/
abbrev V3 : Type := ℚ × ℚ × ℚ

/-- A bounding box, grouped per axis as (lower, upper). -/
abbrev Box : Type := (ℚ × ℚ) × (ℚ × ℚ) × (ℚ × ℚ)

/-- One registered drawable: Python object identity, GetBounds result, and
whether it is an instance of vtkCubeAxesActor. -/
structure Actor where
  id : Nat
  bounds : Option Box
  isCubeAxes : Bool
deriving DecidableEq

/-- Calls made to external collaborators, in order. -/
inductive Event where
  | detachMapper (i : Nat)
  | removeProp (i : Nat)
  | addProp (i : Nat)
  | register (n : String) (i : Nat)
  | resetCam
  | render
deriving DecidableEq

/-- Camera state: position, focal point, view-up, and the diagonal of the
model-transform matrix installed by set_scale. -/
structure Cam where
  pos : V3
  focal : V3
  up : V3
  mtx : V3
deriving DecidableEq

/-- The modelled fields of a Renderer. -/
structure RState where
  actors : List (String × Actor)
  camera_set : Bool
  bounding_box_actor : Option Nat
  scale : V3
  cam : Cam
  events : List Event
deriving DecidableEq

/-- The graphics subsystem chooses the new camera framing on ResetCamera; the
choice is an arbitrary function of the current camera. -/
structure Backend where
  fit : Cam → V3 × V3 × V3

/-- The argument accepted by remove_actor: a name, an actor, a collection of
either, or None. -/
inductive ActorRef where
  | byName (n : String)
  | byActor (a : Actor)
  | refList (rs : List ActorRef)
  | refNone

/-- The return of add_actor: the actor (with its properties), or the raised
error. -/
inductive AddRet where
  | ok (a : Actor)
  | err (msg : String)
deriving DecidableEq

/-- The culling argument of add_actor: a bool or a string. -/
inductive CullArg where
  | cbool (b : Bool)
  | cstr (t : String)
deriving DecidableEq

/-- Python str.startswith, as a prefix test on the character list. -/
def strStarts (k pre : String) : Bool := pre.data.isPrefixOf k.data

/-- Python str.lower, charwise. -/
def strLower (t : String) : String := ⟨t.data.map Char.toLower⟩

/-- Python dict lookup self dot _actors [n]. -/
def dlookup (l : List (String × Actor)) (n : String) : Option Actor :=
  (l.find? (fun e => e.1 == n)).map (fun e => e.2)

/-- Python dict pop of key n; keys of a dict are unique, so removing every
entry with that key agrees with dict pop on every reachable registry. -/
def dpop (l : List (String × Actor)) (n : String) : List (String × Actor) :=
  l.filter (fun e => e.1 != n)

/-- Python dict assignment d [n] = a: replace in place when the key exists,
append otherwise. -/
def dictInsert (l : List (String × Actor)) (n : String) (a : Actor) :
    List (String × Actor) :=
  if l.any (fun e => e.1 == n) then l.map (fun e => if e.1 == n then (n, a) else e)
  else l ++ [(n, a)]

/-- Append one collaborator call to the trace. -/
def emit (s : RState) (ev : Event) : RState :=
  { s with events := s.events ++ [ev] }

/-- parent dot _render (renderer.py line 880 and friends): a fire-and-forget
redraw request. -/
def render (s : RState) : RState := emit s .render

/-- Renderer.reset_camera (renderer.py lines 872-880): the graphics subsystem
refits position, focal point and view-up; the model transform is untouched;
then a redraw is requested. -/
def reset_camera (b : Backend) (s : RState) : RState :=
  let c := b.fit s.cam
  { s with cam := { s.cam with pos := c.1, focal := c.2.1, up := c.2.2 },
           events := s.events ++ [.resetCam, .render] }

/-- componentwise product, i.e. multiplication of (x, y, z, 0) by the diagonal
model-transform matrix. -/
def v3mul (m p : V3) : V3 := (m.1 * p.1, m.2.1 * p.2.1, m.2.2 * p.2.2)

/-- Inverse of the diagonal model-transform matrix (vtkMatrix4x4.Invert on a
diagonal matrix).  Faithful whenever the matrix is invertible. -/
def mtxInv (m : V3) : V3 := (m.1⁻¹, m.2.1⁻¹, m.2.2⁻¹)

/-- scale_point (renderer.py lines 19-43): multiply the homogeneous point
(x, y, z, 0) by the model-transform matrix of the camera, or by its inverse
when invert is true. -/
def scale_point (c : Cam) (p : V3) (invert : Bool) : V3 :=
  if invert then v3mul (mtxInv c.mtx) p else v3mul c.mtx p

/-- The tail of Renderer.remove_actor (renderer.py lines 760-776), reached
once an actor object is in hand: notify the scalar-bar collaborator, remove
the prop from the graphics subsystem, resolve the registry key when the call
was made with an actor object (the Python loop keeps the last matching key),
pop the key, and apply the three-way camera policy. -/
def removeFound (b : Backend) (rc : Option Bool) (s : RState) (a : Actor)
    (nm : Option String) : RState × Bool :=
  let s1 : RState := { s with events := s.events ++ [.detachMapper a.id, .removeProp a.id] }
  let nm2 : Option String := match nm with
    | some n => some n
    | none => s1.actors.foldl (fun acc e => if e.2.id == a.id then some e.1 else acc) none
  let s2 : RState := { s1 with actors := match nm2 with
    | some n => dpop s1.actors n
    | none => s1.actors }
  let s3 := if rc = some true then reset_camera b s2
            else if s2.camera_set = false ∧ rc = none then reset_camera b s2
            else render s2
  (s3, true)

/-- Renderer.remove_actor (renderer.py lines 717-776), with an explicit fuel
for the recursion through the prefix cascade (a string name first removes all
keys starting with the name followed by a dash, by a recursive call on the
list of those keys) and through collections.  Fuel zero returns the state
unchanged; the wrapper remove_actor below always supplies enough fuel for
every key of the cascade to be removed exactly as in the source. -/
def removeGo (b : Backend) (rc : Option Bool) : Nat → RState → ActorRef → RState × Bool
  | 0, s, _ => (s, false)
  | fuel+1, s, .byName n =>
      let names := (s.actors.map (fun e => e.1)).filter (fun k => strStarts k (n ++ "-"))
      let s1 := if 0 < names.length
                then (removeGo b rc fuel s (.refList (names.map ActorRef.byName))).1
                else s
      match dlookup s1.actors n with
      | none => (s1, false)
      | some a => removeFound b rc s1 a (some n)
  | _+1, s, .byActor a => removeFound b rc s a none
  | _+1, s, .refList [] => (s, false)
  | fuel+1, s, .refList (r :: rest) =>
      let q := removeGo b rc fuel s r
      let q2 := removeGo b rc fuel q.1 (.refList rest)
      (q2.1, q.2 || q2.2)
  | _+1, s, .refNone => (s, false)

/-- Fuel budget for remove_actor: one level for the entry, one for the cascade
list, and one per registry key; every cascaded key is popped within this
budget because popping a single key needs one level. -/
def refFuel (s : RState) : ActorRef → Nat
  | .byName _ => s.actors.length + 3
  | .refList rs => s.actors.length + rs.length + 3
  | .byActor _ => 1
  | .refNone => 1

/-- Renderer.remove_actor with its fuel budget. -/
def remove_actor (b : Backend) (rc : Option Bool) (s : RState) (r : ActorRef) :
    RState × Bool :=
  removeGo b rc (refFuel s r) s r

/-- Lowercasing applied to a string culling argument (renderer.py line 178). -/
def cullLower : CullArg → CullArg
  | .cbool v => .cbool v
  | .cstr t => .cstr (strLower t)

/-- Python truthiness of the culling argument. -/
def cullTruthy : CullArg → Bool
  | .cbool v => v
  | .cstr t => t != ""

/-- Membership in the list True, back, backface, b (renderer.py line 181). -/
def cullBack : CullArg → Bool
  | .cbool v => v
  | .cstr t => t == "back" || t == "backface" || t == "b"

/-- Membership in the list front, frontface, f (renderer.py line 186). -/
def cullFront : CullArg → Bool
  | .cbool _ => false
  | .cstr t => t == "front" || t == "frontface" || t == "f"

/-- The interpolated text of the culling error message. -/
def cullText : CullArg → String
  | .cbool v => if v then "True" else "False"
  | .cstr t => t

/-- The auto-generated registry key str(hex(id(actor))) (renderer.py 164). -/
def genName (a : Actor) : String := "0x" ++ toString a.id

/-- The remove_actor argument derived from the name passed to add_actor:
remove_actor of None is a no-op returning False. -/
def addRef : Option String → ActorRef
  | some n => .byName n
  | none => .refNone

/-- The call remove_actor(name, reset_camera=False) opening add_actor
(renderer.py line 152). -/
def addRemoved (b : Backend) (s : RState) (nm : Option String) : RState × Bool :=
  removeGo b (some false) (refFuel s (addRef nm)) s (addRef nm)

/-- The key the actor is registered under: the given name, or the generated
str(hex(id(actor))) (renderer.py lines 163-164). -/
def addName (uin : Actor) : Option String → String
  | some n => n
  | none => genName uin

/-- The state after AddActor and registration (renderer.py lines 160-166). -/
def addReg (b : Backend) (s : RState) (uin : Actor) (nm : Option String) : RState :=
  let s0 := (addRemoved b s nm).1
  let s1 : RState := { s0 with events := s0.events ++ [.addProp uin.id] }
  { s1 with actors := dictInsert s1.actors (addName uin nm) uin,
            events := s1.events ++ [.register (addName uin nm) uin.id] }

/-- The state after the three-way camera policy of add_actor (renderer.py
lines 168-173): explicit reset, auto reset only when no camera was ever set,
reset_camera was None and nothing was replaced, else a plain redraw. -/
def addState (b : Backend) (s : RState) (uin : Actor) (rc : Option Bool)
    (nm : Option String) : RState :=
  let s2 := addReg b s uin nm
  if rc = some true then reset_camera b s2
  else if s2.camera_set = false ∧ rc = none ∧ (addRemoved b s nm).2 = false then
    reset_camera b s2
  else render s2

/-- The culling validation of add_actor (renderer.py lines 177-192), run
after registration: back-face and front-face values are applied to the actor
(a visual effect outside the modelled state), anything else truthy raises. -/
def addRet (uin : Actor) (cull : CullArg) : AddRet :=
  if cullTruthy (cullLower cull) then
    if cullBack (cullLower cull) then .ok uin
    else if cullFront (cullLower cull) then .ok uin
    else .err ("Culling option (" ++ cullText (cullLower cull) ++ ") not understood.")
  else .ok uin

/-- Renderer.add_actor (renderer.py lines 118-198).  First removes any actor
registered under the requested name, then adds the prop, registers the actor
under the name or a generated key, applies the three-way camera policy, and
validates culling; an unrecognized culling raises, leaving the registration
and the camera policy effects in place (they happen before the check).
Mapper inputs are wrapped into a fresh actor by the source; inputs here are
modelled as actors.  SetPickable and the clipping-range reset are visual
effects outside the modelled state. -/
def add_actor (b : Backend) (s : RState) (uin : Actor) (rc : Option Bool)
    (nm : Option String) (cull : CullArg) (pickable : Bool) :
    RState × AddRet :=
  (addState b s uin rc nm, addRet uin cull)

/-- Renderer.set_scale (renderer.py lines 779-801): axes left unspecified keep
their previous value; the scale list is stored as given (the source performs
no zero check despite its docstring), the diagonal transform is installed as
the model-transform matrix of the camera, a redraw is requested, and with
reset_camera the bounds axes are updated and the camera refit. -/
def set_scale (b : Backend) (s : RState) (xs ys zs : Option ℚ) (rc : Bool) : RState :=
  let x := xs.getD s.scale.1
  let y := ys.getD s.scale.2.1
  let z := zs.getD s.scale.2.2
  let s1 : RState := { s with scale := (x, y, z),
                              cam := { s.cam with mtx := (x, y, z) },
                              events := s.events ++ [.render] }
  if rc then reset_camera b s1 else s1

/-- The explicit-triple arm of the camera_position setter (renderer.py lines
649-659): position and focal point are converted through the model transform,
view-up is stored as given, the clipping range is reset (external), and the
camera-set flag becomes true. -/
def setCamPosTriple (s : RState) (p f u : V3) : RState :=
  { s with cam := { s.cam with pos := v3mul s.cam.mtx p,
                               focal := v3mul s.cam.mtx f,
                               up := u },
           camera_set := true }

/-- A float accumulator entry of the bounds property: the +inf or -inf
sentinel, or a finite value. -/
inductive EVal where
  | pinf
  | ninf
  | evq (q : ℚ)
deriving DecidableEq

/-- One minimum update of _update_bounds (renderer.py lines 810-811). -/
def updLo (q : ℚ) : EVal → EVal
  | .pinf => .evq q
  | .ninf => .ninf
  | .evq r => if q < r then .evq q else .evq r

/-- One maximum update of _update_bounds (renderer.py lines 812-813). -/
def updHi (q : ℚ) : EVal → EVal
  | .pinf => .pinf
  | .ninf => .evq q
  | .evq r => if r < q then .evq q else .evq r

/-- The six-entry accumulator the_bounds, grouped per axis as (lower, upper). -/
structure TB where
  x : EVal × EVal
  y : EVal × EVal
  z : EVal × EVal
deriving DecidableEq

/-- the_bounds initial value (+inf, -inf) on every axis (renderer.py 806). -/
def tbInit : TB := ⟨(.pinf, .ninf), (.pinf, .ninf), (.pinf, .ninf)⟩

/-- Fold one actor bounding box into the accumulator. -/
def tbUpd (t : TB) (bb : Box) : TB :=
  ⟨(updLo bb.1.1 t.x.1, updHi bb.1.2 t.x.2),
   (updLo bb.2.1.1 t.y.1, updHi bb.2.1.2 t.y.2),
   (updLo bb.2.2.1 t.z.1, updHi bb.2.2.2 t.z.2)⟩

/-- id(actor) != id(self.bounding_box_actor) (renderer.py line 822). -/
def notBox : Option Nat → Actor → Bool
  | none, _ => true
  | some i, a => a.id != i

/-- One step of the loop of the bounds property (renderer.py lines 818-823):
cube-axes actors are skipped, and an actor contributes when it has defined
bounds and is not the current bounding-box actor. -/
def boundsStep (box : Option Nat) (t : TB) (e : String × Actor) : TB :=
  if e.2.isCubeAxes then t
  else match e.2.bounds with
    | some bb => if notBox box e.2 then tbUpd t bb else t
    | none => t

/-- The accumulator after folding every registered actor. -/
def foldTB (s : RState) : TB :=
  s.actors.foldl (boundsStep s.bounding_box_actor) tbInit

/-- Python truthiness of abs of an entry: nonzero finite values and both
infinities are truthy (np.any(np.abs(the_bounds)), renderer.py line 825). -/
def evNZ : EVal → Bool
  | .evq q => q != 0
  | _ => true

/-- np.any(np.abs(the_bounds)) over the six entries. -/
def tbAnyNZ (t : TB) : Bool :=
  evNZ t.x.1 || evNZ t.x.2 || evNZ t.y.1 || evNZ t.y.2 || evNZ t.z.1 || evNZ t.z.2

/-- The sentinel replacement of renderer.py lines 826-827: entries equal to
+inf become -1.0 and entries equal to -inf become 1.0. -/
def evReplace : EVal → EVal
  | .pinf => .evq (-1)
  | .ninf => .evq 1
  | .evq q => .evq q

/-- Sentinel replacement applied to all six entries. -/
def tbReplace (t : TB) : TB :=
  ⟨(evReplace t.x.1, evReplace t.x.2),
   (evReplace t.y.1, evReplace t.y.2),
   (evReplace t.z.1, evReplace t.z.2)⟩

/-- The bounds property (renderer.py lines 803-829). -/
def bounds (s : RState) : TB :=
  let t := foldTB s
  if tbAnyNZ t then tbReplace t else t

/-- Whether one registered actor contributes its box, mirroring the skip
conditions of the bounds property: not cube-axes, defined bounds, not the
current bounding-box actor. -/
def contribF (box : Option Nat) (e : String × Actor) : Option Box :=
  if e.2.isCubeAxes then none
  else match e.2.bounds with
    | some bb => if notBox box e.2 then some bb else none
    | none => none

/-- The boxes of the contributing actors, in registry order. -/
def contribB (s : RState) : List Box :=
  s.actors.filterMap (contribF s.bounding_box_actor)

/-- Modelled from the specification text of the bounds claim: the exact
per-axis union of the contributing boxes, minimum of the lower edges and
maximum of the upper edges, and the degenerate box (-1, 1) per axis when no
actor contributes. -/
def specUnion : List Box → TB
  | [] => ⟨(.evq (-1), .evq 1), (.evq (-1), .evq 1), (.evq (-1), .evq 1)⟩
  | bb :: rest =>
      ⟨(.evq (rest.foldl (fun m c => min m c.1.1) bb.1.1),
        .evq (rest.foldl (fun m c => max m c.1.2) bb.1.2)),
       (.evq (rest.foldl (fun m c => min m c.2.1.1) bb.2.1.1),
        .evq (rest.foldl (fun m c => max m c.2.1.2) bb.2.1.2)),
       (.evq (rest.foldl (fun m c => min m c.2.2.1) bb.2.2.1),
        .evq (rest.foldl (fun m c => max m c.2.2.2) bb.2.2.2))⟩

/-- A scene mutation of the kind claim C6 quantifies over. -/
inductive SceneOp where
  | addOp (a : Actor) (rc : Option Bool) (nm : Option String) (cull : CullArg)
      (pickable : Bool)
  | removeOp (r : ActorRef) (rc : Option Bool)

/-- The reset_camera argument carried by a scene mutation. -/
def opRC : SceneOp → Option Bool
  | .addOp _ rc _ _ _ => rc
  | .removeOp _ rc => rc

/-- Apply one scene mutation. -/
def applyOp (b : Backend) (s : RState) : SceneOp → RState
  | .addOp a rc nm cull pk => (add_actor b s a rc nm cull pk).1
  | .removeOp r rc => (remove_actor b rc s r).1

/-- Apply a sequence of scene mutations. -/
def runOps (b : Backend) (s : RState) (ops : List SceneOp) : RState :=
  ops.foldl (applyOp b) s

/-- A concrete graphics backend whose camera fit visibly moves the camera,
used by the concrete instances below. -/
def bE : Backend := ⟨fun _ => ((9, 9, 9), (8, 8, 8), (7, 7, 7))⟩

/-- A concrete camera with the identity model transform. -/
def camE : Cam := ⟨(0, 0, 1), (0, 0, 0), (0, 1, 0), (1, 1, 1)⟩

/-- Concrete actors used by the concrete instances below. -/
def actA : Actor := ⟨1, none, false⟩

def actB : Actor := ⟨2, none, false⟩

def actC : Actor := ⟨3, none, false⟩

def actU : Actor := ⟨77, none, false⟩

/-- A renderer holding an actor under a name and another under a dashed
extension of that name. -/
def sC2 : RState := ⟨[("a", actA), ("a-1", actB)], true, none, (1, 1, 1), camE, []⟩

/-- A renderer holding a single plainly-named actor. -/
def sOne : RState := ⟨[("n", actA)], true, none, (1, 1, 1), camE, []⟩

/-- An empty renderer. -/
def sEmpty : RState := ⟨[], true, none, (1, 1, 1), camE, []⟩

/-- A renderer holding only a dashed-extension key. -/
def sC4 : RState := ⟨[("a-1", actB)], true, none, (1, 1, 1), camE, []⟩

/-- A renderer holding only a dashed-extension key, for the cascade claim. -/
def sC9 : RState := ⟨[("b-1", actB)], true, none, (1, 1, 1), camE, []⟩

/-- A renderer holding one actor, none of them the unregistered actor. -/
def sC10 : RState := ⟨[("x", actA)], true, none, (1, 1, 1), camE, []⟩

/-- An empty renderer whose camera was never set. -/
def sC6 : RState := ⟨[], false, none, (1, 1, 1), camE, []⟩

/-- A concrete pair of scene mutations with reset_camera not explicitly
true. -/
def opsC6 : List SceneOp :=
  [SceneOp.addOp actA (some false) (some "w") (.cbool false) true,
   SceneOp.removeOp (.byName "w") none]

/-- The keys collected by the prefix cascade of remove_actor. -/
def cascadeNames (s : RState) (n : String) : List String :=
  (s.actors.map (fun e => e.1)).filter (fun k => strStarts k (n ++ "-"))

/-- The state after the prefix cascade of remove_actor has run. -/
def cascadeState (b : Backend) (rc : Option Bool) (f : Nat) (s : RState) (n : String) :
    RState :=
  if 0 < (cascadeNames s n).length
  then (removeGo b rc f s (.refList ((cascadeNames s n).map ActorRef.byName))).1
  else s

/-- Unfolding: fuel zero. -/
theorem removeGo_zero (b : Backend) (rc : Option Bool) (s : RState) (r : ActorRef) :
    removeGo b rc 0 s r = (s, false) := rfl

/-- Unfolding: the string branch. -/
theorem removeGo_name (b : Backend) (rc : Option Bool) (f : Nat) (s : RState) (n : String) :
    removeGo b rc (f + 1) s (.byName n) =
      (match dlookup (cascadeState b rc f s n).actors n with
       | none => (cascadeState b rc f s n, false)
       | some a => removeFound b rc (cascadeState b rc f s n) a (some n)) := rfl

/-- Unfolding: the actor branch. -/
theorem removeGo_actor (b : Backend) (rc : Option Bool) (f : Nat) (s : RState) (a : Actor) :
    removeGo b rc (f + 1) s (.byActor a) = removeFound b rc s a none := rfl

/-- Unfolding: the empty collection branch. -/
theorem removeGo_nil (b : Backend) (rc : Option Bool) (f : Nat) (s : RState) :
    removeGo b rc (f + 1) s (.refList []) = (s, false) := rfl

/-- Unfolding: the collection step. -/
theorem removeGo_cons (b : Backend) (rc : Option Bool) (f : Nat) (s : RState)
    (r : ActorRef) (rest : List ActorRef) :
    removeGo b rc (f + 1) s (.refList (r :: rest)) =
      ((removeGo b rc f (removeGo b rc f s r).1 (.refList rest)).1,
        (removeGo b rc f s r).2 || (removeGo b rc f (removeGo b rc f s r).1 (.refList rest)).2) :=
  rfl

/-- Unfolding: the None branch. -/
theorem removeGo_none (b : Backend) (rc : Option Bool) (f : Nat) (s : RState) :
    removeGo b rc (f + 1) s .refNone = (s, false) := rfl

/-- The key resolved by the identity scan of remove_actor when called with an
actor object: the last registry key holding that object. -/
def lastMatch (l : List (String × Actor)) (i : Nat) : Option String :=
  l.foldl (fun acc e => if e.2.id == i then some e.1 else acc) none

/-- The registry after the found-actor tail called with a name. -/
theorem removeFound_actors_name (b : Backend) (rc : Option Bool) (s : RState)
    (a : Actor) (n : String) :
    (removeFound b rc s a (some n)).1.actors = dpop s.actors n := by
  obtain ⟨ac, cs, bx, sc, cm, ev⟩ := s
  rcases rc with _ | bv
  · cases cs <;> rfl
  · cases bv <;> cases cs <;> rfl

/-- The registry after the found-actor tail called with an actor object. -/
theorem removeFound_actors_obj (b : Backend) (rc : Option Bool) (s : RState)
    (a : Actor) :
    (removeFound b rc s a none).1.actors =
      match lastMatch s.actors a.id with
      | some k => dpop s.actors k
      | none => s.actors := by
  obtain ⟨ac, cs, bx, sc, cm, ev⟩ := s
  rcases rc with _ | bv
  · cases cs <;> rfl
  · cases bv <;> cases cs <;> rfl

/-- The found-actor tail never changes the camera-set flag. -/
theorem removeFound_camera_set (b : Backend) (rc : Option Bool) (s : RState)
    (a : Actor) (nm : Option String) :
    (removeFound b rc s a nm).1.camera_set = s.camera_set := by
  obtain ⟨ac, cs, bx, sc, cm, ev⟩ := s
  rcases nm with _ | n <;> rcases rc with _ | bv
  · cases cs <;> rfl
  · cases bv <;> cases cs <;> rfl
  · cases cs <;> rfl
  · cases bv <;> cases cs <;> rfl

/-- The found-actor tail always returns true. -/
theorem removeFound_snd (b : Backend) (rc : Option Bool) (s : RState)
    (a : Actor) (nm : Option String) :
    (removeFound b rc s a nm).2 = true := rfl

/-- The registry after the found-actor tail is a sublist of the registry
before. -/
theorem removeFound_sublist (b : Backend) (rc : Option Bool) (s : RState)
    (a : Actor) (nm : Option String) :
    List.Sublist (removeFound b rc s a nm).1.actors s.actors := by
  rcases nm with _ | n
  · rw [removeFound_actors_obj]
    cases hf : lastMatch s.actors a.id with
    | none => exact List.Sublist.refl _
    | some k => exact List.filter_sublist _
  · rw [removeFound_actors_name]
    exact List.filter_sublist _

/-- The registry only shrinks under remove_actor, at every fuel. -/
theorem removeGo_sublist (b : Backend) (rc : Option Bool) :
    ∀ (f : Nat) (s : RState) (r : ActorRef),
      List.Sublist (removeGo b rc f s r).1.actors s.actors := by
  intro f
  induction f with
  | zero => intro s r; exact List.Sublist.refl _
  | succ f ih =>
      intro s r
      cases r with
      | byName n =>
          rw [removeGo_name]
          have hcs : List.Sublist (cascadeState b rc f s n).actors s.actors := by
            unfold cascadeState
            split
            · exact ih s _
            · exact List.Sublist.refl _
          cases hdl : dlookup (cascadeState b rc f s n).actors n with
          | none => exact hcs
          | some a =>
              refine List.Sublist.trans ?_ hcs
              rw [removeFound_actors_name]
              exact List.filter_sublist _
      | byActor a => rw [removeGo_actor]; exact removeFound_sublist b rc s a none
      | refList rs =>
          cases rs with
          | nil => rw [removeGo_nil]
          | cons r rest =>
              rw [removeGo_cons]
              exact List.Sublist.trans (ih _ (.refList rest)) (ih s r)
      | refNone => rw [removeGo_none]

/-- A dict lookup misses exactly when no entry has the key. -/
theorem dlookup_none_iff (l : List (String × Actor)) (n : String) :
    dlookup l n = none ↔ ∀ e ∈ l, e.1 ≠ n := by
  simp [dlookup, List.find?_eq_none]

/-- A miss is preserved when the registry shrinks. -/
theorem dlookup_none_sublist (l1 l2 : List (String × Actor)) (n : String)
    (h : List.Sublist l1 l2) (hn : dlookup l2 n = none) : dlookup l1 n = none := by
  rw [dlookup_none_iff] at hn ⊢
  exact fun e he => hn e (h.subset he)

/-- No entry of a popped registry has the popped key. -/
theorem dpop_key_gone (l : List (String × Actor)) (n : String) :
    ∀ e ∈ dpop l n, e.1 ≠ n := by
  intro e he
  have h := List.of_mem_filter he
  simpa using h

/-- After remove_actor of a name, at any positive fuel, the name is not a key
of the registry. -/
theorem removeGo_key_gone (b : Backend) (rc : Option Bool) (f : Nat) (hf : 1 ≤ f)
    (s : RState) (n : String) :
    ∀ e ∈ (removeGo b rc f s (.byName n)).1.actors, e.1 ≠ n := by
  obtain ⟨g, rfl⟩ : ∃ g, f = g + 1 := ⟨f - 1, by omega⟩
  rw [removeGo_name]
  cases hdl : dlookup (cascadeState b rc g s n).actors n with
  | none =>
      intro e he
      have he2 : e ∈ (cascadeState b rc g s n).actors := he
      exact (dlookup_none_iff _ _).1 hdl e he2
  | some a =>
      intro e he
      have he2 : e ∈ (removeFound b rc (cascadeState b rc g s n) a (some n)).1.actors := he
      rw [removeFound_actors_name] at he2
      exact dpop_key_gone _ _ e he2

/-- Processing a list of names removes every one of them, given one fuel
level per element plus one. -/
theorem removeGo_names_gone (b : Backend) (rc : Option Bool) :
    ∀ (ms : List String) (f : Nat) (s : RState), ms.length + 1 ≤ f →
      ∀ m ∈ ms, ∀ e ∈ (removeGo b rc f s (.refList (ms.map ActorRef.byName))).1.actors,
        e.1 ≠ m := by
  intro ms
  induction ms with
  | nil => intro f s hf m hm; cases hm
  | cons m0 rest ih =>
      intro f s hf m hm
      obtain ⟨g, rfl⟩ : ∃ g, f = g + 1 := ⟨f - 1, by omega⟩
      intro e he
      have he2 : e ∈ (removeGo b rc g (removeGo b rc g s (.byName m0)).1
          (.refList (rest.map ActorRef.byName))).1.actors := by
        have hmap : (m0 :: rest).map ActorRef.byName
            = ActorRef.byName m0 :: rest.map ActorRef.byName := rfl
        rw [hmap, removeGo_cons] at he
        exact he
      rcases List.mem_cons.mp hm with rfl | hm2
      · have hsub := removeGo_sublist b rc g (removeGo b rc g s (.byName m)).1
          (.refList (rest.map ActorRef.byName))
        have he3 := hsub.subset he2
        have hg1 : 1 ≤ g := by
          have hlc : (m :: rest).length = rest.length + 1 := List.length_cons m rest
          omega
        exact removeGo_key_gone b rc g hg1 s m e he3
      · have hlen : rest.length + 1 ≤ g := by
          have hlc : (m0 :: rest).length = rest.length + 1 := List.length_cons m0 rest
          omega
        exact ih g _ hlen m hm2 e he2

/-- After remove_actor of a name, no registry key starts with the name
followed by a dash: the cascade removed them all. -/
theorem remove_clears_cascade (b : Backend) (rc : Option Bool) (s : RState) (n : String) :
    ∀ e ∈ (remove_actor b rc s (.byName n)).1.actors, strStarts e.1 (n ++ "-") = false := by
  intro e he
  have he1 : e ∈ (removeGo b rc (s.actors.length + 2 + 1) s (.byName n)).1.actors := he
  rw [removeGo_name] at he1
  have hecs : e ∈ (cascadeState b rc (s.actors.length + 2) s n).actors := by
    cases hdl : dlookup (cascadeState b rc (s.actors.length + 2) s n).actors n with
    | none =>
        rw [hdl] at he1
        exact he1
    | some a =>
        rw [hdl] at he1
        have he2 : e ∈ (removeFound b rc (cascadeState b rc (s.actors.length + 2) s n) a
            (some n)).1.actors := he1
        rw [removeFound_actors_name] at he2
        exact List.mem_of_mem_filter he2
  by_contra hc
  have hpre2 : strStarts e.1 (n ++ "-") = true := by
    cases hx : strStarts e.1 (n ++ "-")
    · exact absurd hx hc
    · rfl
  have hes : e ∈ s.actors := by
    have hcsub : List.Sublist (cascadeState b rc (s.actors.length + 2) s n).actors s.actors := by
      unfold cascadeState
      split
      · exact removeGo_sublist b rc _ s _
      · exact List.Sublist.refl _
    exact hcsub.subset hecs
  have hmem : e.1 ∈ cascadeNames s n := by
    unfold cascadeNames
    exact List.mem_filter.mpr ⟨List.mem_map.mpr ⟨e, hes, rfl⟩, hpre2⟩
  have hlen : 0 < (cascadeNames s n).length := by
    cases hx : cascadeNames s n with
    | nil => rw [hx] at hmem; cases hmem
    | cons c cs => simp
  have hflen : (cascadeNames s n).length + 1 ≤ s.actors.length + 2 := by
    have h1 : (cascadeNames s n).length ≤ s.actors.length := by
      have h2 := List.length_filter_le (fun k => strStarts k (n ++ "-"))
        (s.actors.map (fun e => e.1))
      have h3 : (s.actors.map (fun e => e.1)).length = s.actors.length :=
        List.length_map _ _
      calc (cascadeNames s n).length
          = ((s.actors.map (fun e => e.1)).filter (fun k => strStarts k (n ++ "-"))).length := rfl
        _ ≤ (s.actors.map (fun e => e.1)).length := h2
        _ = s.actors.length := h3
    omega
  have he4 : e ∈ (removeGo b rc (s.actors.length + 2) s
      (.refList ((cascadeNames s n).map ActorRef.byName))).1.actors := by
    have hcse : cascadeState b rc (s.actors.length + 2) s n
        = (removeGo b rc (s.actors.length + 2) s
            (.refList ((cascadeNames s n).map ActorRef.byName))).1 := by
      unfold cascadeState
      rw [if_pos hlen]
    rw [hcse] at hecs
    exact hecs
  exact (removeGo_names_gone b rc (cascadeNames s n) (s.actors.length + 2) s hflen
    e.1 hmem e he4) rfl

/-- remove_actor of a name that is absent and has no cascade keys is a
complete no-op returning false. -/
theorem removeGo_noop (b : Backend) (rc : Option Bool) (f : Nat) (s : RState) (n : String)
    (h1 : dlookup s.actors n = none) (h2 : cascadeNames s n = []) :
    removeGo b rc (f + 1) s (.byName n) = (s, false) := by
  rw [removeGo_name]
  have hcs : cascadeState b rc f s n = s := by
    unfold cascadeState
    rw [h2]
    simp
  rw [hcs, h1]

/-- The exact result of the found-actor tail when called with a name and
reset_camera false. -/
theorem removeFound_somefalse (b : Backend) (s : RState) (a : Actor) (n : String) :
    removeFound b (some false) s a (some n)
      = ({ s with actors := dpop s.actors n,
                  events := (s.events ++ [.detachMapper a.id, .removeProp a.id]) ++ [.render] },
         true) := by
  obtain ⟨ac, cs, bx, sc, cm, ev⟩ := s
  cases cs <;> rfl

/-- The trace grows by the scalar-bar detach and the prop removal, then the
policy events, when the found-actor tail runs on an actor object. -/
theorem removeFound_obj_events (b : Backend) (rc : Option Bool) (s : RState) (a : Actor) :
    ∃ tail, (removeFound b rc s a none).1.events
      = s.events ++ [.detachMapper a.id, .removeProp a.id] ++ tail := by
  obtain ⟨ac, cs, bx, sc, cm, ev⟩ := s
  rcases rc with _ | bv
  · cases cs
    · exact ⟨[Event.resetCam, Event.render], rfl⟩
    · exact ⟨[Event.render], rfl⟩
  · cases bv
    · cases cs <;> exact ⟨[Event.render], rfl⟩
    · cases cs <;> exact ⟨[Event.resetCam, Event.render], rfl⟩

/-- Relation between two states differing only by non-camera fields and by
appended trace events that contain no camera reset. -/
def EvExt (s t : RState) : Prop :=
  t.cam = s.cam ∧ t.camera_set = s.camera_set ∧
    ∃ d, t.events = s.events ++ d ∧ Event.resetCam ∉ d

/-- EvExt is reflexive. -/
theorem EvExt_refl (s : RState) : EvExt s s :=
  ⟨rfl, rfl, [], by simp, by simp⟩

/-- EvExt is transitive. -/
theorem EvExt_trans (s t u : RState) (h1 : EvExt s t) (h2 : EvExt t u) : EvExt s u := by
  obtain ⟨hc1, hs1, d1, he1, hn1⟩ := h1
  obtain ⟨hc2, hs2, d2, he2, hn2⟩ := h2
  refine ⟨hc2.trans hc1, hs2.trans hs1, d1 ++ d2, ?_, ?_⟩
  · rw [he2, he1, List.append_assoc]
  · intro hm
    rcases List.mem_append.mp hm with h | h
    · exact hn1 h
    · exact hn2 h

/-- With the camera-set flag true and reset_camera not explicitly true, the
found-actor tail does not touch the camera and requests only a redraw. -/
theorem removeFound_evext (b : Backend) (rc : Option Bool) (s : RState) (a : Actor)
    (nm : Option String) (hrc : rc ≠ some true) (hcs : s.camera_set = true) :
    EvExt s (removeFound b rc s a nm).1 := by
  obtain ⟨ac, cs, bx, sc, cm, ev⟩ := s
  have hcs2 : cs = true := hcs
  subst hcs2
  rcases rc with _ | bv
  · refine ⟨rfl, rfl, [.detachMapper a.id, .removeProp a.id, .render], ?_, by simp⟩
    show (ev ++ [Event.detachMapper a.id, Event.removeProp a.id]) ++ [Event.render] = _
    simp
  · cases bv
    · refine ⟨rfl, rfl, [.detachMapper a.id, .removeProp a.id, .render], ?_, by simp⟩
      show (ev ++ [Event.detachMapper a.id, Event.removeProp a.id]) ++ [Event.render] = _
      simp
    · exact absurd rfl hrc

/-- With the camera-set flag true and reset_camera not explicitly true,
remove_actor never refits the camera, at any fuel. -/
theorem removeGo_evext (b : Backend) (rc : Option Bool) (hrc : rc ≠ some true) :
    ∀ (f : Nat) (s : RState) (r : ActorRef), s.camera_set = true →
      EvExt s (removeGo b rc f s r).1 := by
  intro f
  induction f with
  | zero => intro s r _; exact EvExt_refl s
  | succ f ih =>
      intro s r hcs
      cases r with
      | byName n =>
          rw [removeGo_name]
          have h1 : EvExt s (cascadeState b rc f s n) := by
            unfold cascadeState
            split
            · exact ih s _ hcs
            · exact EvExt_refl s
          have hcs1 : (cascadeState b rc f s n).camera_set = true := by
            rw [h1.2.1, hcs]
          cases hdl : dlookup (cascadeState b rc f s n).actors n with
          | none => exact h1
          | some a =>
              exact EvExt_trans _ _ _ h1
                (removeFound_evext b rc _ a (some n) hrc hcs1)
      | byActor a =>
          rw [removeGo_actor]
          exact removeFound_evext b rc s a none hrc hcs
      | refList rs =>
          cases rs with
          | nil => rw [removeGo_nil]; exact EvExt_refl s
          | cons r rest =>
              rw [removeGo_cons]
              have h1 := ih s r hcs
              have hcs1 : (removeGo b rc f s r).1.camera_set = true := by
                rw [h1.2.1, hcs]
              exact EvExt_trans _ _ _ h1 (ih _ (.refList rest) hcs1)
      | refNone => rw [removeGo_none]; exact EvExt_refl s

/-- With the camera-set flag true and reset_camera not explicitly true,
add_actor never refits the camera. -/
theorem add_actor_evext (b : Backend) (s : RState) (uin : Actor) (rc : Option Bool)
    (nm : Option String) (cull : CullArg) (pk : Bool)
    (hrc : rc ≠ some true) (hcs : s.camera_set = true) :
    EvExt s (add_actor b s uin rc nm cull pk).1 := by
  have h1 : EvExt s (addRemoved b s nm).1 :=
    removeGo_evext b (some false) (by simp) _ s _ hcs
  have h2 : EvExt s (addReg b s uin nm) := by
    refine EvExt_trans _ _ _ h1
      ⟨rfl, rfl, [.addProp uin.id, .register (addName uin nm) uin.id], ?_, by simp⟩
    show ((addRemoved b s nm).1.events ++ [Event.addProp uin.id])
        ++ [Event.register (addName uin nm) uin.id] = _
    simp
  have hcs2 : (addReg b s uin nm).camera_set = true := by rw [h2.2.1, hcs]
  have hn2 : ¬ ((addReg b s uin nm).camera_set = false ∧ rc = none
      ∧ (addRemoved b s nm).2 = false) := by
    intro hand
    have hx := hand.1
    rw [hcs2] at hx
    exact Bool.noConfusion hx
  have h3 : addState b s uin rc nm = render (addReg b s uin nm) := by
    unfold addState
    rw [if_neg hrc, if_neg hn2]
  show EvExt s (addState b s uin rc nm)
  rw [h3]
  exact EvExt_trans _ _ _ h2 ⟨rfl, rfl, [.render], rfl, by simp⟩

/-- One scene mutation with reset_camera not explicitly true preserves the
camera when the camera-set flag is up. -/
theorem applyOp_evext (b : Backend) (s : RState) (op : SceneOp)
    (hrc : opRC op ≠ some true) (hcs : s.camera_set = true) :
    EvExt s (applyOp b s op) := by
  cases op with
  | addOp a rc nm cull pk => exact add_actor_evext b s a rc nm cull pk hrc hcs
  | removeOp r rc => exact removeGo_evext b rc hrc _ s r hcs

/-- A sequence of scene mutations with reset_camera not explicitly true
preserves the camera when the camera-set flag is up. -/
theorem runOps_evext (b : Backend) :
    ∀ (ops : List SceneOp) (s : RState), (∀ op ∈ ops, opRC op ≠ some true) →
      s.camera_set = true → EvExt s (runOps b s ops) := by
  intro ops
  induction ops with
  | nil => intro s _ _; exact EvExt_refl s
  | cons op rest ih =>
      intro s h hcs
      have h1 : EvExt s (applyOp b s op) :=
        applyOp_evext b s op (h op (List.mem_cons_self op rest)) hcs
      have hcs1 : (applyOp b s op).camera_set = true := by rw [h1.2.1, hcs]
      have h2 := ih (applyOp b s op) (fun o ho => h o (List.mem_cons_of_mem op ho)) hcs1
      exact EvExt_trans _ _ _ h1 h2

/-- Replacing in place the entries with the matching key makes the key map to
the new actor. -/
theorem dlookup_map_repl (n : String) (a : Actor) :
    ∀ (l : List (String × Actor)), l.any (fun e => e.1 == n) = true →
      dlookup (l.map (fun e => if e.1 == n then (n, a) else e)) n = some a := by
  intro l
  induction l with
  | nil => intro h; simp at h
  | cons e rest ih =>
      intro h
      by_cases hk : e.1 = n
      · have he : (if e.1 == n then (n, a) else e) = (n, a) := by simp [hk]
        rw [List.map_cons, he]
        unfold dlookup
        rw [List.find?_cons_of_pos _ (by simp)]
        rfl
      · have he : (if e.1 == n then (n, a) else e) = e := by simp [hk]
        rw [List.map_cons, he]
        have h2 : rest.any (fun e => e.1 == n) = true := by
          rcases List.any_eq_true.mp h with ⟨x, hx, hpx⟩
          rcases List.mem_cons.mp hx with rfl | hx2
          · exact absurd (by simpa using hpx) hk
          · exact List.any_eq_true.mpr ⟨x, hx2, hpx⟩
        unfold dlookup
        rw [List.find?_cons_of_neg _ (by simp [hk])]
        exact ih h2

/-- Appending a fresh entry makes its key map to it when the key was absent. -/
theorem dlookup_append_self (l : List (String × Actor)) (n : String) (a : Actor)
    (h : ∀ e ∈ l, e.1 ≠ n) :
    dlookup (l ++ [(n, a)]) n = some a := by
  induction l with
  | nil =>
      unfold dlookup
      rw [List.nil_append, List.find?_cons_of_pos _ (by simp)]
      rfl
  | cons e rest ih =>
      unfold dlookup
      rw [List.cons_append, List.find?_cons_of_neg _ (by simpa using h e (List.mem_cons_self e rest))]
      exact ih (fun x hx => h x (List.mem_cons_of_mem e hx))

/-- Dict assignment makes the key map to the assigned actor. -/
theorem dlookup_dictInsert (l : List (String × Actor)) (n : String) (a : Actor) :
    dlookup (dictInsert l n a) n = some a := by
  unfold dictInsert
  split
  case isTrue h => exact dlookup_map_repl n a l h
  case isFalse h =>
      refine dlookup_append_self l n a ?_
      intro e he heq
      exact h (List.any_eq_true.mpr ⟨e, he, by simp [heq]⟩)

/-- Dict assignment of an absent key appends, growing the dict by one. -/
theorem dictInsert_length_new (l : List (String × Actor)) (n : String) (a : Actor)
    (h : ∀ e ∈ l, e.1 ≠ n) :
    (dictInsert l n a).length = l.length + 1 := by
  unfold dictInsert
  rw [if_neg]
  · simp
  · intro hany
    rcases List.any_eq_true.mp hany with ⟨x, hx, hpx⟩
    exact h x hx (by simpa using hpx)

/-- Popping a present key from a registry with unique keys removes exactly
one entry. -/
theorem dpop_length (n : String) (a : Actor) :
    ∀ (l : List (String × Actor)), (l.map (fun e => e.1)).Nodup →
      dlookup l n = some a → (dpop l n).length + 1 = l.length := by
  intro l
  induction l with
  | nil => intro _ hm; simp [dlookup] at hm
  | cons e rest ih =>
      intro hnd hm
      by_cases hk : e.1 = n
      · have hrest : ∀ x ∈ rest, x.1 ≠ n := by
          intro x hx heq
          have h1 : e.1 ∈ rest.map (fun e => e.1) := by
            rw [hk, ← heq]
            exact List.mem_map.mpr ⟨x, hx, rfl⟩
          rw [List.map_cons] at hnd
          exact (List.nodup_cons.mp hnd).1 h1
        have hfilter : dpop (e :: rest) n = dpop rest n := by
          unfold dpop
          rw [List.filter_cons]
          simp [hk]
        have hrest_eq : dpop rest n = rest := by
          unfold dpop
          apply List.filter_eq_self.mpr
          intro x hx
          simpa using hrest x hx
        rw [hfilter, hrest_eq]
        simp
      · have hfilter : dpop (e :: rest) n = e :: dpop rest n := by
          unfold dpop
          rw [List.filter_cons]
          simp [hk]
        have hm2 : dlookup rest n = some a := by
          unfold dlookup at hm ⊢
          rw [List.find?_cons_of_neg _ (by simpa using hk)] at hm
          exact hm
        have hnd2 : (rest.map (fun e => e.1)).Nodup := by
          rw [List.map_cons] at hnd
          exact (List.nodup_cons.mp hnd).2
        rw [hfilter]
        have := ih hnd2 hm2
        simp only [List.length_cons]
        omega

/-- remove_actor of a present name with an empty cascade reduces to the
found-actor tail. -/
theorem removeGo_found_nocascade (b : Backend) (rc : Option Bool) (f : Nat) (s : RState)
    (n : String) (aOld : Actor)
    (h2 : cascadeNames s n = []) (h1 : dlookup s.actors n = some aOld) :
    removeGo b rc (f + 1) s (.byName n) = removeFound b rc s aOld (some n) := by
  rw [removeGo_name]
  have hcs : cascadeState b rc f s n = s := by
    unfold cascadeState
    rw [h2]
    simp
  rw [hcs, h1]

/-- The camera policy of add_actor does not touch the registry. -/
theorem addState_actors (b : Backend) (s : RState) (uin : Actor) (rc : Option Bool)
    (nm : Option String) :
    (addState b s uin rc nm).actors = (addReg b s uin nm).actors := by
  show (if rc = some true then reset_camera b (addReg b s uin nm)
        else if (addReg b s uin nm).camera_set = false ∧ rc = none
            ∧ (addRemoved b s nm).2 = false then reset_camera b (addReg b s uin nm)
        else render (addReg b s uin nm)).actors = (addReg b s uin nm).actors
  by_cases h1 : rc = some true
  · rw [if_pos h1]; rfl
  · rw [if_neg h1]
    by_cases h2 : (addReg b s uin nm).camera_set = false ∧ rc = none
        ∧ (addRemoved b s nm).2 = false
    · rw [if_pos h2]; rfl
    · rw [if_neg h2]; rfl

/-- The registry after registration. -/
theorem addReg_actors (b : Backend) (s : RState) (uin : Actor) (nm : Option String) :
    (addReg b s uin nm).actors
      = dictInsert (addRemoved b s nm).1.actors (addName uin nm) uin := rfl

/-- The bounds fold skips exactly the non-contributing actors. -/
theorem foldl_boundsStep_filterMap (box : Option Nat) :
    ∀ (l : List (String × Actor)) (t : TB),
      l.foldl (boundsStep box) t = (l.filterMap (contribF box)).foldl tbUpd t := by
  intro l
  induction l with
  | nil => intro t; rfl
  | cons e rest ih =>
      intro t
      rw [List.foldl_cons]
      by_cases hca : e.2.isCubeAxes = true
      · have h1 : boundsStep box t e = t := by unfold boundsStep; rw [if_pos hca]
        have h2 : contribF box e = none := by unfold contribF; rw [if_pos hca]
        rw [h1, List.filterMap_cons, h2]
        exact ih t
      · cases heb : e.2.bounds with
        | none =>
            have h1 : boundsStep box t e = t := by
              unfold boundsStep; rw [if_neg hca, heb]
            have h2 : contribF box e = none := by
              unfold contribF; rw [if_neg hca, heb]
            rw [h1, List.filterMap_cons, h2]
            exact ih t
        | some bb =>
            by_cases hnb : notBox box e.2 = true
            · have h1 : boundsStep box t e = tbUpd t bb := by
                unfold boundsStep; rw [if_neg hca, heb]
                show (if notBox box e.2 = true then tbUpd t bb else t) = tbUpd t bb
                rw [if_pos hnb]
              have h2 : contribF box e = some bb := by
                unfold contribF; rw [if_neg hca, heb]
                show (if notBox box e.2 = true then some bb else none) = some bb
                rw [if_pos hnb]
              rw [h1, List.filterMap_cons, h2, List.foldl_cons]
              exact ih (tbUpd t bb)
            · have h1 : boundsStep box t e = t := by
                unfold boundsStep; rw [if_neg hca, heb]
                show (if notBox box e.2 = true then tbUpd t bb else t) = t
                rw [if_neg hnb]
              have h2 : contribF box e = none := by
                unfold contribF; rw [if_neg hca, heb]
                show (if notBox box e.2 = true then some bb else none) = none
                rw [if_neg hnb]
              rw [h1, List.filterMap_cons, h2]
              exact ih t

/-- The accumulator is the fold of the contributing boxes. -/
theorem foldTB_contrib (s : RState) :
    foldTB s = (contribB s).foldl tbUpd tbInit :=
  foldl_boundsStep_filterMap s.bounding_box_actor s.actors tbInit

/-- A projection of the box fold commutes with the fold when it commutes with
one step. -/
theorem foldl_tb_proj {β : Type} (g : TB → β) (st : β → Box → β)
    (hcomm : ∀ t bb, g (tbUpd t bb) = st (g t) bb) :
    ∀ (bs : List Box) (t : TB), g (bs.foldl tbUpd t) = bs.foldl st (g t) := by
  intro bs
  induction bs with
  | nil => intro t; rfl
  | cons bb rest ih =>
      intro t
      rw [List.foldl_cons, List.foldl_cons, ih, hcomm]

/-- Folding minimum updates from a finite value computes the list minimum. -/
theorem foldl_updLo_proj (g : Box → ℚ) :
    ∀ (l : List Box) (q0 : ℚ),
      l.foldl (fun a c => updLo (g c) a) (.evq q0)
        = .evq (l.foldl (fun m c => min m (g c)) q0) := by
  intro l
  induction l with
  | nil => intro q0; rfl
  | cons c rest ih =>
      intro q0
      rw [List.foldl_cons, List.foldl_cons]
      have h : updLo (g c) (.evq q0) = .evq (min q0 (g c)) := by
        show (if g c < q0 then EVal.evq (g c) else .evq q0) = _
        by_cases hlt : g c < q0
        · rw [if_pos hlt, min_eq_right hlt.le]
        · rw [if_neg hlt, min_eq_left (le_of_not_lt hlt)]
      rw [h]
      exact ih (min q0 (g c))

/-- Folding maximum updates from a finite value computes the list maximum. -/
theorem foldl_updHi_proj (g : Box → ℚ) :
    ∀ (l : List Box) (q0 : ℚ),
      l.foldl (fun a c => updHi (g c) a) (.evq q0)
        = .evq (l.foldl (fun m c => max m (g c)) q0) := by
  intro l
  induction l with
  | nil => intro q0; rfl
  | cons c rest ih =>
      intro q0
      rw [List.foldl_cons, List.foldl_cons]
      have h : updHi (g c) (.evq q0) = .evq (max q0 (g c)) := by
        show (if q0 < g c then EVal.evq (g c) else .evq q0) = _
        by_cases hlt : q0 < g c
        · rw [if_pos hlt, max_eq_right hlt.le]
        · rw [if_neg hlt, max_eq_left (le_of_not_lt hlt)]
      rw [h]
      exact ih (max q0 (g c))

/-- The bounds property once the accumulator is known to be finite on every
axis. -/
theorem bounds_of_all_evq (s : RState) (a1 a2 a3 a4 a5 a6 : ℚ)
    (h : foldTB s = ⟨(.evq a1, .evq a2), (.evq a3, .evq a4), (.evq a5, .evq a6)⟩) :
    bounds s = ⟨(.evq a1, .evq a2), (.evq a3, .evq a4), (.evq a5, .evq a6)⟩ := by
  show (if tbAnyNZ (foldTB s) then tbReplace (foldTB s) else foldTB s) = _
  rw [h]
  have hr : tbReplace ⟨(.evq a1, .evq a2), (.evq a3, .evq a4), (.evq a5, .evq a6)⟩
      = ⟨(.evq a1, .evq a2), (.evq a3, .evq a4), (.evq a5, .evq a6)⟩ := rfl
  rw [hr]
  exact ite_self _

/-- The bounds property applies the sentinel replacement whenever some entry
is truthy. -/
theorem bounds_replace_of_nz (s : RState) (h : tbAnyNZ (foldTB s) = true) :
    bounds s = tbReplace (foldTB s) := by
  show (if tbAnyNZ (foldTB s) then tbReplace (foldTB s) else foldTB s) = _
  rw [if_pos h]


/-- The camera policy of add_actor only appends trace events. -/
theorem addState_events (b : Backend) (s : RState) (uin : Actor) (rc : Option Bool)
    (nm : Option String) :
    ∃ tail, (addState b s uin rc nm).events = (addReg b s uin nm).events ++ tail := by
  show ∃ tail, (if rc = some true then reset_camera b (addReg b s uin nm)
        else if (addReg b s uin nm).camera_set = false ∧ rc = none
            ∧ (addRemoved b s nm).2 = false then reset_camera b (addReg b s uin nm)
        else render (addReg b s uin nm)).events = (addReg b s uin nm).events ++ tail
  by_cases h1 : rc = some true
  · rw [if_pos h1]
    exact ⟨[.resetCam, .render], rfl⟩
  · rw [if_neg h1]
    by_cases h2 : (addReg b s uin nm).camera_set = false ∧ rc = none
        ∧ (addRemoved b s nm).2 = false
    · rw [if_pos h2]
      exact ⟨[.resetCam, .render], rfl⟩
    · rw [if_neg h2]
      exact ⟨[.render], rfl⟩

/-- The trace after registration. -/
theorem addReg_events (b : Backend) (s : RState) (uin : Actor) (nm : Option String) :
    (addReg b s uin nm).events
      = ((addRemoved b s nm).1.events ++ [.addProp uin.id])
          ++ [.register (addName uin nm) uin.id] := rfl

/-- The culling validation raises on an unrecognized truthy string. -/
theorem addRet_err (uin : Actor) (t : String) (hne : strLower t ≠ "")
    (hb : cullBack (.cstr (strLower t)) = false)
    (hf : cullFront (.cstr (strLower t)) = false) :
    addRet uin (.cstr t)
      = .err ("Culling option (" ++ strLower t ++ ") not understood.") := by
  have hcl : cullLower (.cstr t) = .cstr (strLower t) := rfl
  unfold addRet
  rw [hcl]
  have htr : cullTruthy (.cstr (strLower t)) = true := by
    show (strLower t != "") = true
    simpa using hne
  rw [htr, hb, hf]
  simp [cullText]

/-- The identity scan finds no key when the actor is registered under no
name. -/
theorem lastMatch_none (i : Nat) :
    ∀ (l : List (String × Actor)), (∀ e ∈ l, e.2.id ≠ i) → lastMatch l i = none := by
  have hgen : ∀ (l : List (String × Actor)) (z : Option String), (∀ e ∈ l, e.2.id ≠ i) →
      l.foldl (fun acc e => if e.2.id == i then some e.1 else acc) z = z := by
    intro l
    induction l with
    | nil => intro z _; rfl
    | cons e rest ih =>
        intro z h
        rw [List.foldl_cons]
        have hne : (e.2.id == i) = false := by
          simpa using h e (List.mem_cons_self e rest)
        rw [hne, if_neg (by simp)]
        exact ih z (fun x hx => h x (List.mem_cons_of_mem e hx))
  intro l h
  exact hgen l none h

/-- C1: for every renderer state (hence after every sequence of add_actor and
remove_actor calls), the bounds property equals the exact per-axis union,
minimum of lower edges and maximum of upper edges, of the boxes of the
registered actors that are not cube-axes actors and not the current
bounding-box actor and report defined bounds; when no actor contributes, it
equals (-1, 1, -1, 1, -1, 1). -/
theorem bounds_eq_union (s : RState) : bounds s = specUnion (contribB s) := by
  cases hc : contribB s with
  | nil =>
      have h1 : foldTB s = tbInit := by rw [foldTB_contrib, hc]; rfl
      show (if tbAnyNZ (foldTB s) then tbReplace (foldTB s) else foldTB s) = _
      rw [h1]
      decide
  | cons bb rest =>
      have hfold := foldTB_contrib s
      rw [hc] at hfold
      have hx1 : (foldTB s).x.1 = .evq (rest.foldl (fun m c => min m c.1.1) bb.1.1) := by
        rw [hfold]
        calc ((bb :: rest).foldl tbUpd tbInit).x.1
            = (bb :: rest).foldl (fun a c => updLo c.1.1 a) tbInit.x.1 :=
              foldl_tb_proj (fun t => t.x.1) (fun a c => updLo c.1.1 a)
                (fun t bb => rfl) (bb :: rest) tbInit
          _ = rest.foldl (fun a c => updLo c.1.1 a) (.evq bb.1.1) := rfl
          _ = .evq (rest.foldl (fun m c => min m c.1.1) bb.1.1) :=
              foldl_updLo_proj (fun c => c.1.1) rest bb.1.1
      have hx2 : (foldTB s).x.2 = .evq (rest.foldl (fun m c => max m c.1.2) bb.1.2) := by
        rw [hfold]
        calc ((bb :: rest).foldl tbUpd tbInit).x.2
            = (bb :: rest).foldl (fun a c => updHi c.1.2 a) tbInit.x.2 :=
              foldl_tb_proj (fun t => t.x.2) (fun a c => updHi c.1.2 a)
                (fun t bb => rfl) (bb :: rest) tbInit
          _ = rest.foldl (fun a c => updHi c.1.2 a) (.evq bb.1.2) := rfl
          _ = .evq (rest.foldl (fun m c => max m c.1.2) bb.1.2) :=
              foldl_updHi_proj (fun c => c.1.2) rest bb.1.2
      have hy1 : (foldTB s).y.1 = .evq (rest.foldl (fun m c => min m c.2.1.1) bb.2.1.1) := by
        rw [hfold]
        calc ((bb :: rest).foldl tbUpd tbInit).y.1
            = (bb :: rest).foldl (fun a c => updLo c.2.1.1 a) tbInit.y.1 :=
              foldl_tb_proj (fun t => t.y.1) (fun a c => updLo c.2.1.1 a)
                (fun t bb => rfl) (bb :: rest) tbInit
          _ = rest.foldl (fun a c => updLo c.2.1.1 a) (.evq bb.2.1.1) := rfl
          _ = .evq (rest.foldl (fun m c => min m c.2.1.1) bb.2.1.1) :=
              foldl_updLo_proj (fun c => c.2.1.1) rest bb.2.1.1
      have hy2 : (foldTB s).y.2 = .evq (rest.foldl (fun m c => max m c.2.1.2) bb.2.1.2) := by
        rw [hfold]
        calc ((bb :: rest).foldl tbUpd tbInit).y.2
            = (bb :: rest).foldl (fun a c => updHi c.2.1.2 a) tbInit.y.2 :=
              foldl_tb_proj (fun t => t.y.2) (fun a c => updHi c.2.1.2 a)
                (fun t bb => rfl) (bb :: rest) tbInit
          _ = rest.foldl (fun a c => updHi c.2.1.2 a) (.evq bb.2.1.2) := rfl
          _ = .evq (rest.foldl (fun m c => max m c.2.1.2) bb.2.1.2) :=
              foldl_updHi_proj (fun c => c.2.1.2) rest bb.2.1.2
      have hz1 : (foldTB s).z.1 = .evq (rest.foldl (fun m c => min m c.2.2.1) bb.2.2.1) := by
        rw [hfold]
        calc ((bb :: rest).foldl tbUpd tbInit).z.1
            = (bb :: rest).foldl (fun a c => updLo c.2.2.1 a) tbInit.z.1 :=
              foldl_tb_proj (fun t => t.z.1) (fun a c => updLo c.2.2.1 a)
                (fun t bb => rfl) (bb :: rest) tbInit
          _ = rest.foldl (fun a c => updLo c.2.2.1 a) (.evq bb.2.2.1) := rfl
          _ = .evq (rest.foldl (fun m c => min m c.2.2.1) bb.2.2.1) :=
              foldl_updLo_proj (fun c => c.2.2.1) rest bb.2.2.1
      have hz2 : (foldTB s).z.2 = .evq (rest.foldl (fun m c => max m c.2.2.2) bb.2.2.2) := by
        rw [hfold]
        calc ((bb :: rest).foldl tbUpd tbInit).z.2
            = (bb :: rest).foldl (fun a c => updHi c.2.2.2 a) tbInit.z.2 :=
              foldl_tb_proj (fun t => t.z.2) (fun a c => updHi c.2.2.2 a)
                (fun t bb => rfl) (bb :: rest) tbInit
          _ = rest.foldl (fun a c => updHi c.2.2.2 a) (.evq bb.2.2.2) := rfl
          _ = .evq (rest.foldl (fun m c => max m c.2.2.2) bb.2.2.2) :=
              foldl_updHi_proj (fun c => c.2.2.2) rest bb.2.2.2
      have hx : (foldTB s).x = (.evq (rest.foldl (fun m c => min m c.1.1) bb.1.1),
          .evq (rest.foldl (fun m c => max m c.1.2) bb.1.2)) := by
        rw [show (foldTB s).x = ((foldTB s).x.1, (foldTB s).x.2) from rfl, hx1, hx2]
      have hy : (foldTB s).y = (.evq (rest.foldl (fun m c => min m c.2.1.1) bb.2.1.1),
          .evq (rest.foldl (fun m c => max m c.2.1.2) bb.2.1.2)) := by
        rw [show (foldTB s).y = ((foldTB s).y.1, (foldTB s).y.2) from rfl, hy1, hy2]
      have hz : (foldTB s).z = (.evq (rest.foldl (fun m c => min m c.2.2.1) bb.2.2.1),
          .evq (rest.foldl (fun m c => max m c.2.2.2) bb.2.2.2)) := by
        rw [show (foldTB s).z = ((foldTB s).z.1, (foldTB s).z.2) from rfl, hz1, hz2]
      have hfin : foldTB s = ⟨(.evq (rest.foldl (fun m c => min m c.1.1) bb.1.1),
          .evq (rest.foldl (fun m c => max m c.1.2) bb.1.2)),
          (.evq (rest.foldl (fun m c => min m c.2.1.1) bb.2.1.1),
          .evq (rest.foldl (fun m c => max m c.2.1.2) bb.2.1.2)),
          (.evq (rest.foldl (fun m c => min m c.2.2.1) bb.2.2.1),
          .evq (rest.foldl (fun m c => max m c.2.2.2) bb.2.2.2))⟩ := by
        rw [show foldTB s = ⟨(foldTB s).x, (foldTB s).y, (foldTB s).z⟩ from rfl, hx, hy, hz]
      rw [bounds_of_all_evq s _ _ _ _ _ _ hfin]
      rfl

/-- C8 (amended): for every axis entry of the accumulator still at its
infinite sentinel after folding, the bounds property replaces the plus-inf
entry with -1 and the minus-inf entry with +1 (not +1 and -1 as the claim
states). -/
theorem bounds_sentinel_replaced (s : RState) :
    ((foldTB s).x.1 = .pinf → (bounds s).x.1 = .evq (-1)) ∧
    ((foldTB s).x.2 = .ninf → (bounds s).x.2 = .evq 1) ∧
    ((foldTB s).y.1 = .pinf → (bounds s).y.1 = .evq (-1)) ∧
    ((foldTB s).y.2 = .ninf → (bounds s).y.2 = .evq 1) ∧
    ((foldTB s).z.1 = .pinf → (bounds s).z.1 = .evq (-1)) ∧
    ((foldTB s).z.2 = .ninf → (bounds s).z.2 = .evq 1) := by
  refine ⟨?_, ?_, ?_, ?_, ?_, ?_⟩ <;> intro h
  · have hnz : tbAnyNZ (foldTB s) = true := by unfold tbAnyNZ; rw [h]; simp [evNZ]
    rw [bounds_replace_of_nz s hnz]
    show evReplace (foldTB s).x.1 = _
    rw [h]
    rfl
  · have hnz : tbAnyNZ (foldTB s) = true := by unfold tbAnyNZ; rw [h]; simp [evNZ]
    rw [bounds_replace_of_nz s hnz]
    show evReplace (foldTB s).x.2 = _
    rw [h]
    rfl
  · have hnz : tbAnyNZ (foldTB s) = true := by unfold tbAnyNZ; rw [h]; simp [evNZ]
    rw [bounds_replace_of_nz s hnz]
    show evReplace (foldTB s).y.1 = _
    rw [h]
    rfl
  · have hnz : tbAnyNZ (foldTB s) = true := by unfold tbAnyNZ; rw [h]; simp [evNZ]
    rw [bounds_replace_of_nz s hnz]
    show evReplace (foldTB s).y.2 = _
    rw [h]
    rfl
  · have hnz : tbAnyNZ (foldTB s) = true := by unfold tbAnyNZ; rw [h]; simp [evNZ]
    rw [bounds_replace_of_nz s hnz]
    show evReplace (foldTB s).z.1 = _
    rw [h]
    rfl
  · have hnz : tbAnyNZ (foldTB s) = true := by unfold tbAnyNZ; rw [h]; simp [evNZ]
    rw [bounds_replace_of_nz s hnz]
    show evReplace (foldTB s).z.2 = _
    rw [h]
    rfl

/-- C8 witness: on the empty scene the lower x accumulator entry is the
plus-inf sentinel and the corresponding bounds entry is -1. -/
theorem bounds_sentinel_replaced_witness :
    (foldTB sEmpty).x.1 = .pinf ∧ (bounds sEmpty).x.1 = .evq (-1) :=
  ⟨by decide, (bounds_sentinel_replaced sEmpty).1 (by decide)⟩

/-- C8 counterexample: on the empty scene every accumulator entry is still at
its sentinel, yet the lower x entry of bounds is -1, not the +1 the claim
dictates for a plus-inf entry. -/
theorem bounds_sentinel_claim_false :
    (foldTB sEmpty).x.1 = EVal.pinf ∧ (bounds sEmpty).x.1 = EVal.evq (-1) ∧
      EVal.evq (-1) ≠ EVal.evq 1 := by
  refine ⟨by decide, by decide, by decide⟩

/-- C7: after set_scale(2, 1, 1), from any state and with either value of the
reset flag, applying scale_point forward and then inverted returns every
3-vector unchanged. -/
theorem scale_point_roundtrip (b : Backend) (s : RState) (rc : Bool) (p : V3) :
    scale_point (set_scale b s (some 2) (some 1) (some 1) rc).cam
      (scale_point (set_scale b s (some 2) (some 1) (some 1) rc).cam p false) true = p := by
  obtain ⟨p1, p2, p3⟩ := p
  have hm : (set_scale b s (some 2) (some 1) (some 1) rc).cam.mtx = (2, 1, 1) := by
    unfold set_scale
    cases rc
    · rfl
    · rfl
  have hgoal : scale_point (set_scale b s (some 2) (some 1) (some 1) rc).cam
      (scale_point (set_scale b s (some 2) (some 1) (some 1) rc).cam (p1, p2, p3) false) true
      = v3mul (mtxInv (set_scale b s (some 2) (some 1) (some 1) rc).cam.mtx)
          (v3mul (set_scale b s (some 2) (some 1) (some 1) rc).cam.mtx (p1, p2, p3)) := rfl
  rw [hgoal, hm]
  show ((2 : ℚ)⁻¹ * (2 * p1), (1 : ℚ)⁻¹ * (1 * p2), (1 : ℚ)⁻¹ * (1 * p3)) = (p1, p2, p3)
  have h1 : (2 : ℚ)⁻¹ * (2 * p1) = p1 := by ring
  have h2 : (1 : ℚ)⁻¹ * (1 * p2) = p2 := by ring
  have h3 : (1 : ℚ)⁻¹ * (1 * p3) = p3 := by ring
  rw [h1, h2, h3]

/-- C5 (code bug): set_scale stores a zero axis scale verbatim and installs
it on the camera model transform, although its own docstring says a scale of
zero is illegal and will be replaced with one; no axis is rejected or
normalized. -/
theorem set_scale_zero_kept :
    (set_scale bE sEmpty (some 0) (some 1) (some 1) false).scale = ((0 : ℚ), (1 : ℚ), (1 : ℚ))
      ∧ (set_scale bE sEmpty (some 0) (some 1) (some 1) false).cam.mtx
          = ((0 : ℚ), (1 : ℚ), (1 : ℚ)) := by
  refine ⟨by decide, by decide⟩

/-- C9: remove_actor of a string name removes every registered actor whose
key starts with the name followed by a dash, even when the name itself is
not a registered key, in which case the call still returns false. -/
theorem remove_actor_cascade (b : Backend) (rc : Option Bool) (s : RState) (n : String) :
    (∀ e ∈ (remove_actor b rc s (.byName n)).1.actors, strStarts e.1 (n ++ "-") = false)
    ∧ (dlookup s.actors n = none → (remove_actor b rc s (.byName n)).2 = false) := by
  refine ⟨remove_clears_cascade b rc s n, ?_⟩
  intro h
  have h1 : remove_actor b rc s (.byName n)
      = removeGo b rc (s.actors.length + 2 + 1) s (.byName n) := rfl
  rw [h1, removeGo_name]
  have hnone : dlookup (cascadeState b rc (s.actors.length + 2) s n).actors n = none := by
    refine dlookup_none_sublist _ s.actors n ?_ h
    unfold cascadeState
    split
    · exact removeGo_sublist b rc _ s _
    · exact List.Sublist.refl _
  rw [hnone]

/-- C9 witness: removing the unregistered name b from a renderer holding only
the key b-1 removes that key and returns false. -/
theorem remove_actor_cascade_witness :
    dlookup sC9.actors "b" = none
      ∧ (remove_actor bE none sC9 (.byName "b")).2 = false
      ∧ (remove_actor bE none sC9 (.byName "b")).1.actors = [] :=
  ⟨by decide, (remove_actor_cascade bE none sC9 "b").2 (by decide), by decide⟩

/-- C10: remove_actor called with an actor object registered under no name
still notifies the scalar-bar collaborator and removes the prop from the
graphics subsystem, leaves the registry unchanged, and returns true. -/
theorem remove_actor_unregistered_obj (b : Backend) (rc : Option Bool) (s : RState)
    (a : Actor) (h : ∀ e ∈ s.actors, e.2.id ≠ a.id) :
    (remove_actor b rc s (.byActor a)).1.actors = s.actors ∧
    (remove_actor b rc s (.byActor a)).2 = true ∧
    ∃ tail, (remove_actor b rc s (.byActor a)).1.events
        = s.events ++ [.detachMapper a.id, .removeProp a.id] ++ tail := by
  have h0 : remove_actor b rc s (.byActor a) = removeFound b rc s a none := rfl
  rw [h0]
  refine ⟨?_, removeFound_snd b rc s a none, removeFound_obj_events b rc s a⟩
  rw [removeFound_actors_obj, lastMatch_none a.id s.actors h]

/-- C10 witness: removing an actor object absent from the registry leaves the
registry unchanged and returns true. -/
theorem remove_actor_unregistered_obj_witness :
    (remove_actor bE (some false) sC10 (.byActor actU)).1.actors = sC10.actors ∧
    (remove_actor bE (some false) sC10 (.byActor actU)).2 = true :=
  ⟨(remove_actor_unregistered_obj bE (some false) sC10 actU (by decide)).1,
   (remove_actor_unregistered_obj bE (some false) sC10 actU (by decide)).2.1⟩

/-- C4 (amended): remove_actor of an unregistered name returns false, and
leaves the state byte-identical provided additionally no registered key
starts with the name followed by a dash (otherwise the prefix cascade
removes those keys even though the call still returns false, as the
counterexample shows); removing the same name twice is always a complete
no-op returning false on the second call; remove_actor of None is a no-op
returning false. -/
theorem remove_actor_absent (b : Backend) (rc : Option Bool) (s : RState) (n : String)
    (h1 : dlookup s.actors n = none)
    (h2 : ∀ e ∈ s.actors, strStarts e.1 (n ++ "-") = false) :
    remove_actor b rc s (.byName n) = (s, false) ∧
    remove_actor b rc s .refNone = (s, false) ∧
    (∀ t : RState, remove_actor b rc ((remove_actor b rc t (.byName n)).1) (.byName n)
        = ((remove_actor b rc t (.byName n)).1, false)) := by
  refine ⟨?_, rfl, ?_⟩
  · have hcn : cascadeNames s n = [] := by
      unfold cascadeNames
      refine List.filter_eq_nil_iff.mpr ?_
      intro k hk
      rcases List.mem_map.mp hk with ⟨e, he, rfl⟩
      simp [h2 e he]
    exact removeGo_noop b rc (s.actors.length + 2) s n h1 hcn
  · intro t
    have hgone := removeGo_key_gone b rc (t.actors.length + 3) (by omega) t n
    have h1t : dlookup (remove_actor b rc t (.byName n)).1.actors n = none :=
      (dlookup_none_iff _ _).mpr hgone
    have h2t : cascadeNames (remove_actor b rc t (.byName n)).1 n = [] := by
      unfold cascadeNames
      refine List.filter_eq_nil_iff.mpr ?_
      intro k hk
      rcases List.mem_map.mp hk with ⟨e, he, rfl⟩
      simp [remove_clears_cascade b rc t n e he]
    exact removeGo_noop b rc ((remove_actor b rc t (.byName n)).1.actors.length + 2)
      (remove_actor b rc t (.byName n)).1 n h1t h2t

/-- C4 witness: removing the absent name q from a renderer holding only the
key n is a complete no-op returning false. -/
theorem remove_actor_absent_witness :
    dlookup sOne.actors "q" = none ∧
    remove_actor bE (some false) sOne (.byName "q") = (sOne, false) :=
  ⟨by decide, (remove_actor_absent bE (some false) sOne "q" (by decide) (by decide)).1⟩

/-- C4 counterexample: removing the absent name a from a renderer holding
only the key a-1 returns false but does not leave the registry unchanged:
the cascade removes a-1. -/
theorem remove_actor_absent_claim_false :
    dlookup sC4.actors "a" = none ∧
    (remove_actor bE (some false) sC4 (.byName "a")).2 = false ∧
    (remove_actor bE (some false) sC4 (.byName "a")).1.actors = [] ∧
    sC4.actors ≠ [] :=
  ⟨by decide, by decide, by decide, by decide⟩

/-- C3 (amended): add_actor with an unrecognized truthy culling string
raises the culling error, but only after the actor has been added: after the
failed call the actor is registered under the requested name (registration
at renderer.py line 166 precedes the culling check at line 192). -/
theorem add_actor_bad_culling (b : Backend) (s : RState) (uin : Actor) (rc : Option Bool)
    (n : String) (pk : Bool) (t : String)
    (hne : strLower t ≠ "")
    (hb : cullBack (.cstr (strLower t)) = false)
    (hf : cullFront (.cstr (strLower t)) = false) :
    (add_actor b s uin rc (some n) (.cstr t) pk).2
        = .err ("Culling option (" ++ strLower t ++ ") not understood.") ∧
    dlookup (add_actor b s uin rc (some n) (.cstr t) pk).1.actors n = some uin := by
  constructor
  · exact addRet_err uin t hne hb hf
  · have hact : (add_actor b s uin rc (some n) (.cstr t) pk).1.actors
        = dictInsert (addRemoved b s (some n)).1.actors n uin := by
      show (addState b s uin rc (some n)).actors = _
      rw [addState_actors, addReg_actors]
      rfl
    rw [hact]
    exact dlookup_dictInsert _ n uin

/-- C3 witness: a mixed-case unrecognized culling string raises and the actor
stays registered. -/
theorem add_actor_bad_culling_witness :
    (add_actor bE sEmpty actC (some false) (some "w") (.cstr "Sideways") true).2
        = .err ("Culling option (" ++ strLower "Sideways" ++ ") not understood.") ∧
    dlookup (add_actor bE sEmpty actC (some false) (some "w") (.cstr "Sideways") true).1.actors
        "w" = some actC :=
  add_actor_bad_culling bE sEmpty actC (some false) "w" true "Sideways"
    (by decide) (by decide) (by decide)

/-- C3 counterexample: add with culling sideways raises, yet afterwards the
registry does contain the new actor under the requested name, contradicting
the claim that the actor is not added. -/
theorem add_actor_bad_culling_claim_false :
    (add_actor bE sEmpty actC (some false) (some "m") (.cstr "sideways") true).2
        = .err "Culling option (sideways) not understood." ∧
    dlookup (add_actor bE sEmpty actC (some false) (some "m") (.cstr "sideways")
        true).1.actors "m" = some actC :=
  ⟨by decide, by decide⟩

/-- C2 (amended): adding under an already-used name n, on a registry with
unique keys none of which other than n starts with n followed by a dash,
first fully detaches the old actor (the scalar-bar drop and the prop removal
precede the registration of the new actor in the trace); afterwards n maps
to the new actor and the registry size is unchanged.  Without the no-dashed-
key proviso the inner remove_actor also removes every key starting with n
dash and the size shrinks, as the counterexample shows. -/
theorem add_actor_replaces (b : Backend) (s : RState) (aOld aNew : Actor)
    (rc : Option Bool) (n : String) (cull : CullArg) (pk : Bool)
    (hnd : (s.actors.map (fun e => e.1)).Nodup)
    (hold : dlookup s.actors n = some aOld)
    (hpre : ∀ e ∈ s.actors, strStarts e.1 (n ++ "-") = false) :
    (add_actor b s aNew rc (some n) cull pk).1.actors.length = s.actors.length ∧
    dlookup (add_actor b s aNew rc (some n) cull pk).1.actors n = some aNew ∧
    ∃ tail, (add_actor b s aNew rc (some n) cull pk).1.events
        = s.events ++ [.detachMapper aOld.id, .removeProp aOld.id, .render,
            .addProp aNew.id, .register n aNew.id] ++ tail := by
  have hcn : cascadeNames s n = [] := by
    unfold cascadeNames
    refine List.filter_eq_nil_iff.mpr ?_
    intro k hk
    rcases List.mem_map.mp hk with ⟨e, he, rfl⟩
    simp [hpre e he]
  have hrm : addRemoved b s (some n)
      = ({ s with actors := dpop s.actors n,
                  events := (s.events ++ [.detachMapper aOld.id, .removeProp aOld.id])
                    ++ [.render] }, true) := by
    show removeGo b (some false) (s.actors.length + 2 + 1) s (.byName n) = _
    rw [removeGo_found_nocascade b (some false) (s.actors.length + 2) s n aOld hcn hold]
    exact removeFound_somefalse b s aOld n
  have hact : (add_actor b s aNew rc (some n) cull pk).1.actors
      = dictInsert (dpop s.actors n) n aNew := by
    show (addState b s aNew rc (some n)).actors = _
    rw [addState_actors, addReg_actors, hrm]
    rfl
  have hfresh : ∀ e ∈ dpop s.actors n, e.1 ≠ n := dpop_key_gone s.actors n
  refine ⟨?_, ?_, ?_⟩
  · rw [hact, dictInsert_length_new _ n aNew hfresh]
    exact dpop_length n aOld s.actors hnd hold
  · rw [hact]
    exact dlookup_dictInsert _ n aNew
  · obtain ⟨tl, htl⟩ := addState_events b s aNew rc (some n)
    refine ⟨tl, ?_⟩
    show (addState b s aNew rc (some n)).events = _
    rw [htl, addReg_events, hrm]
    simp [addName]

/-- C2 witness: replacing the only actor registered under n keeps the
registry size and maps n to the new actor. -/
theorem add_actor_replaces_witness :
    (add_actor bE sOne actB (some false) (some "n") (.cbool false) true).1.actors.length
        = sOne.actors.length ∧
    dlookup (add_actor bE sOne actB (some false) (some "n") (.cbool false)
        true).1.actors "n" = some actB :=
  ⟨(add_actor_replaces bE sOne actA actB (some false) "n" (.cbool false) true
      (by decide) (by decide) (by decide)).1,
   (add_actor_replaces bE sOne actA actB (some false) "n" (.cbool false) true
      (by decide) (by decide) (by decide)).2.1⟩

/-- C2 counterexample: with keys a and a-1 registered, adding under a leaves
one entry, not two: the inner remove_actor also cascaded to a-1, so the
registry size is not preserved. -/
theorem add_actor_replaces_claim_false :
    dlookup sC2.actors "a" = some actA ∧ sC2.actors.length = 2 ∧
    (add_actor bE sC2 actC (some false) (some "a") (.cbool false) true).1.actors.length = 1 ∧
    (1 : Nat) ≠ 2 :=
  ⟨by decide, by decide, by decide, by decide⟩

/-- C6: assigning camera_position an explicit triple raises the camera-set
flag; afterwards every sequence of add_actor and remove_actor calls whose
reset_camera argument is not explicitly true leaves the camera (position,
focal point, view-up, model transform) unchanged and never emits a camera
reset, only redraw and registry events. -/
theorem camera_triple_blocks_refit (b : Backend) (s : RState) (p f u : V3)
    (ops : List SceneOp) (h : ∀ op ∈ ops, opRC op ≠ some true) :
    (setCamPosTriple s p f u).camera_set = true ∧
    (runOps b (setCamPosTriple s p f u) ops).camera_set = true ∧
    (runOps b (setCamPosTriple s p f u) ops).cam = (setCamPosTriple s p f u).cam ∧
    ∃ d, (runOps b (setCamPosTriple s p f u) ops).events
        = (setCamPosTriple s p f u).events ++ d ∧ Event.resetCam ∉ d := by
  have hcs : (setCamPosTriple s p f u).camera_set = true := rfl
  have h1 := runOps_evext b ops (setCamPosTriple s p f u) h hcs
  exact ⟨rfl, by rw [h1.2.1, hcs], h1.1, h1.2.2⟩

/-- C6 witness: after an explicit camera triple, one add and one remove with
reset_camera false and None leave the camera unchanged even though the
backend would move it on any reset. -/
theorem camera_triple_blocks_refit_witness :
    (setCamPosTriple sC6 (0, 0, 5) (0, 0, 0) (0, 1, 0)).camera_set = true ∧
    (runOps bE (setCamPosTriple sC6 (0, 0, 5) (0, 0, 0) (0, 1, 0)) opsC6).camera_set = true ∧
    (runOps bE (setCamPosTriple sC6 (0, 0, 5) (0, 0, 0) (0, 1, 0)) opsC6).cam
        = (setCamPosTriple sC6 (0, 0, 5) (0, 0, 0) (0, 1, 0)).cam ∧
    ∃ d, (runOps bE (setCamPosTriple sC6 (0, 0, 5) (0, 0, 0) (0, 1, 0)) opsC6).events
        = (setCamPosTriple sC6 (0, 0, 5) (0, 0, 0) (0, 1, 0)).events ++ d
        ∧ Event.resetCam ∉ d :=
  camera_triple_blocks_refit bE sC6 (0, 0, 5) (0, 0, 0) (0, 1, 0) opsC6 (by decide)
